import Mathlib

/-!
Verification of the resilient batch-synchronization pipeline of the
moe-bot-trendspider-data repository.  The Python sources are shallowly
embedded: pure helpers become Lean functions, Python dicts become
association lists with insert-or-replace semantics, Python sets become
finite sets of strings, fallible calls become `Except` values, and the
externally-determined outcome of a network request (status code, parsed
body, escaped exception) is passed in as an explicit parameter.
-/

namespace TrendSpider

/-! ## Python dict model: association list with insert-or-replace -/

/-- Lookup in a Python-dict model: first matching key wins (keys are unique
by construction of `dictInsert`). `none` models `key not in d`. -/
def dictGet {κ α : Type} [DecidableEq κ] : List (κ × α) → κ → Option α
  | [], _ => none
  | (k, v) :: rest, key => if k = key then some v else dictGet rest key

/-- Model of `d[key] = v`: replace in place if present, else append. -/
def dictInsert {κ α : Type} [DecidableEq κ] : List (κ × α) → κ → α → List (κ × α)
  | [], key, v => [(key, v)]
  | (k, w) :: rest, key, v =>
    if k = key then (key, v) :: rest else (k, w) :: dictInsert rest key v

/-- Model of `d.update(kvs)` / a loop of assignments: sequential inserts. -/
def dictUpdate {κ α : Type} [DecidableEq κ] (c : List (κ × α)) (kvs : List (κ × α)) :
    List (κ × α) :=
  kvs.foldl (fun acc p => dictInsert acc p.1 p.2) c

theorem dictGet_insert_self {κ α : Type} [DecidableEq κ] (c : List (κ × α)) (k : κ) (v : α) :
    dictGet (dictInsert c k v) k = some v := by
  induction c with
  | nil => simp [dictInsert, dictGet]
  | cons p rest ih =>
    by_cases h : p.1 = k
    · simp [dictInsert, h, dictGet]
    · simp [dictInsert, h, dictGet, ih]

theorem dictGet_insert_ne {κ α : Type} [DecidableEq κ] (c : List (κ × α)) (k key : κ) (v : α)
    (h : k ≠ key) : dictGet (dictInsert c k v) key = dictGet c key := by
  induction c with
  | nil => simp [dictInsert, dictGet, h]
  | cons p rest ih =>
    by_cases hp : p.1 = k
    · simp [dictInsert, hp, dictGet, h]
    · simp [dictInsert, hp, dictGet, ih]

theorem dictGet_update_notMem {κ α : Type} [DecidableEq κ] (kvs : List (κ × α)) :
    ∀ (c : List (κ × α)) (t : κ), t ∉ kvs.map Prod.fst →
      dictGet (dictUpdate c kvs) t = dictGet c t := by
  induction kvs with
  | nil => intro c t _; rfl
  | cons p rest ih =>
    intro c t ht
    simp only [List.map_cons, List.mem_cons] at ht
    push_neg at ht
    have step : dictUpdate c (p :: rest) = dictUpdate (dictInsert c p.1 p.2) rest := rfl
    rw [step, ih _ t ht.2, dictGet_insert_ne _ _ _ _ (Ne.symm ht.1)]

theorem dictGet_update_const {κ α : Type} [DecidableEq κ] (kvs : List (κ × α)) (v : α) :
    ∀ (c : List (κ × α)) (t : κ), (∀ p ∈ kvs, p.2 = v) → t ∈ kvs.map Prod.fst →
      dictGet (dictUpdate c kvs) t = some v := by
  induction kvs with
  | nil => intro c t _ ht; simp at ht
  | cons p rest ih =>
    intro c t hv ht
    have step : dictUpdate c (p :: rest) = dictUpdate (dictInsert c p.1 p.2) rest := rfl
    simp only [List.map_cons, List.mem_cons] at ht
    by_cases hmem : t ∈ rest.map Prod.fst
    · rw [step, ih _ t (fun q hq => hv q (List.mem_cons_of_mem _ hq)) hmem]
    · have hpt : p.1 = t := by tauto
      have hpv : p.2 = v := hv p (List.mem_cons_self _ _)
      rw [step, dictGet_update_notMem _ _ _ hmem, hpt, dictGet_insert_self, hpv]

theorem dictGet_ne_nil {κ α : Type} [DecidableEq κ] (c : List (κ × α)) (t : κ) (v : α)
    (h : dictGet c t = some v) : c ≠ [] := by
  intro hc; subst hc; simp [dictGet] at h

/-! ## Backoff Executor (`retry_with_backoff`, populate_ticker_data.py lines 25-62)

The Python loop runs `attempt` from `0` to `max_retries`; each iteration
invokes the operation once, returns its value on success, and on failure
stores the exception, re-raising it when `attempt == max_retries` and
otherwise sleeping `min(base_delay * 2^attempt, max_delay)` plus jitter
before the next iteration.  The sleep affects neither the returned value
nor the number of invocations, so the embedding drops wall-clock time and
returns the result paired with the exact number of invocations made.
The operation is modelled as a function from the attempt index to an
`Except` outcome, so each invocation may fail or succeed independently. -/

/-- Delay before the retry following failed attempt `attempt`
(jitter excluded), as computed at line 54 of populate_ticker_data.py. -/
def backoff_delay (base_delay max_delay : ℚ) (attempt : Nat) : ℚ :=
  min (base_delay * 2 ^ attempt) max_delay

/-- Loop body of `retry_with_backoff`: `attempt` is the current attempt
index, the second argument is the number of attempts still allowed after
this one.  Returns the final outcome and the number of invocations. -/
def retryAux {ε α : Type} (f : Nat → Except ε α) : Nat → Nat → Except ε α × Nat
  | attempt, 0 =>
    match f attempt with
    | .ok a => (.ok a, 1)
    | .error e => (.error e, 1)
  | attempt, r + 1 =>
    match f attempt with
    | .ok a => (.ok a, 1)
    | .error _ =>
      let p := retryAux f (attempt + 1) r
      (p.1, p.2 + 1)

/-- Embedding of `retry_with_backoff(func, max_retries, ...)`: run the
attempt loop starting at attempt 0 with `max_retries` retries remaining. -/
def retry_with_backoff {ε α : Type} (f : Nat → Except ε α) (max_retries : Nat) :
    Except ε α × Nat :=
  retryAux f 0 max_retries

theorem retryAux_ok {ε α : Type} (f : Nat → Except ε α) (a : α) :
    ∀ (k r attempt : Nat), k ≤ r →
      (∀ i, i < k → ∃ e, f (attempt + i) = .error e) →
      f (attempt + k) = .ok a →
      retryAux f attempt r = (.ok a, k + 1) := by
  intro k
  induction k with
  | zero =>
    intro r attempt _ _ hk
    simp only [Nat.add_zero] at hk
    cases r with
    | zero => simp [retryAux, hk]
    | succ r => simp [retryAux, hk]
  | succ k ih =>
    intro r attempt hkr hfail hk
    obtain ⟨r, rfl⟩ : ∃ r0, r = r0 + 1 :=
      ⟨r - 1, by omega⟩
    obtain ⟨e, he⟩ := hfail 0 (Nat.succ_pos k)
    rw [Nat.add_zero] at he
    have hrec : retryAux f (attempt + 1) r = (.ok a, k + 1) := by
      refine ih r (attempt + 1) (by omega) (fun i hi => ?_) ?_
      · obtain ⟨e2, he2⟩ := hfail (i + 1) (by omega)
        exact ⟨e2, by rw [show attempt + 1 + i = attempt + (i + 1) by omega]; exact he2⟩
      · rw [show attempt + 1 + k = attempt + (k + 1) by omega]; exact hk
    simp [retryAux, he, hrec]

theorem retryAux_err {ε α : Type} (f : Nat → Except ε α) (g : Nat → ε) :
    ∀ (r attempt : Nat), (∀ i, i ≤ r → f (attempt + i) = .error (g (attempt + i))) →
      retryAux f attempt r = (.error (g (attempt + r)), r + 1) := by
  intro r
  induction r with
  | zero =>
    intro attempt h
    have h0 := h 0 (Nat.le_refl 0)
    rw [Nat.add_zero] at h0
    simp [retryAux, h0]
  | succ r ih =>
    intro attempt h
    have h0 := h 0 (Nat.zero_le _)
    rw [Nat.add_zero] at h0
    have hrec := ih (attempt + 1) (fun i hi => by
      rw [show attempt + 1 + i = attempt + (i + 1) by omega]
      exact h (i + 1) (by omega))
    rw [show attempt + 1 + r = attempt + (r + 1) by omega] at hrec
    simp [retryAux, h0, hrec]

/-! ## Timestamp conversion (`convert_dotnet_timestamp`, populate_ticker_data.py lines 112-128)

The Python function returns `None` for a falsy string or one not starting
with `/Date(`; otherwise it applies the regular expression
`/Date\((\d+)\)/` with `re.search` (leftmost match; the greedy digit group
is equivalent to a maximal digit run because a digit cannot match the
closing parenthesis), and on a match returns
`int(digits) // 1000 + 14400`.  Strings are embedded as `List Char`. -/

/-- Maximal leading digit run of a character list, paired with the rest. -/
def digitSpan : List Char → List Char × List Char
  | [] => ([], [])
  | c :: cs =>
    if c.isDigit then
      let p := digitSpan cs
      (c :: p.1, p.2)
    else ([], c :: cs)

/-- Value of a decimal digit string, as computed by Python `int`. -/
def digitsVal (ds : List Char) : Nat :=
  ds.foldl (fun n c => 10 * n + (c.toNat - 48)) 0

/-- Attempt to match the regular expression `/Date\((\d+)\)/` at the start
of the character list, returning the digit group value on success. -/
def matchDateAt (s : List Char) : Option Nat :=
  if "/Date(".toList.isPrefixOf s then
    let p := digitSpan (s.drop 6)
    if p.1 ≠ [] ∧ ")/".toList.isPrefixOf p.2 then some (digitsVal p.1) else none
  else none

/-- Leftmost match of `/Date\((\d+)\)/` anywhere in the list, as found by
`re.search`. -/
def searchDate : List Char → Option Nat
  | [] => none
  | c :: cs =>
    match matchDateAt (c :: cs) with
    | some v => some v
    | none => searchDate cs

/-- Embedding of `convert_dotnet_timestamp(timestamp_str)`. -/
def convert_dotnet_timestamp (s : List Char) : Option Nat :=
  if s = [] ∨ ¬ ("/Date(".toList.isPrefixOf s) then none
  else
    match searchDate s with
    | some ms => some (ms / 1000 + 14400)
    | none => none

/-- Modelled from the spec sentence of claim C10: an input is exactly
of the form `/Date(<digits>)/` when it decomposes as the literal prefix
`/Date(`, a non-empty digit run, and the exact suffix `)/`. -/
def isExactDateForm (s : List Char) : Bool :=
  "/Date(".toList.isPrefixOf s &&
    (let p := digitSpan (s.drop 6)
     decide (p.1 ≠ []) && decide (p.2 = ")/".toList))

theorem digitSpan_append (ds rest : List Char) (hds : ∀ c ∈ ds, c.isDigit)
    (hrest : ∀ c, rest.head? = some c → ¬ c.isDigit) :
    digitSpan (ds ++ rest) = (ds, rest) := by
  induction ds with
  | nil =>
    cases rest with
    | nil => rfl
    | cons c cs =>
      have := hrest c rfl
      simp [digitSpan, this]
  | cons d ds ih =>
    have hd : d.isDigit := hds d (List.mem_cons_self _ _)
    have := ih (fun c hc => hds c (List.mem_cons_of_mem _ hc))
    simp [digitSpan, hd, this]

/-! ## Change Detector (`detect_ticker_changes`, monitor_ticker_changes.py lines 94-102)

The Python function converts both ticker lists to sets, takes the set
difference both ways, and returns the two differences (as lists whose
order is the arbitrary set-iteration order; the embedding returns the
finite sets themselves, which is all the claim constrains).  It touches
no external state. -/

/-- Embedding of `detect_ticker_changes(current_tickers, cached_tickers)`. -/
def detect_ticker_changes (current_tickers cached_tickers : List String) :
    Finset String × Finset String :=
  let current_set := current_tickers.toFinset
  let cached_set := cached_tickers.toFinset
  (current_set \ cached_set, cached_set \ current_set)

/-! ## Group partitioning (populate_ticker_data.py main, lines 974-1046)

Line 976 forms `batches = [tickers[i:i + batch_size] for i in
range(0, len(tickers), batch_size)]` with `batch_size = 50`; this is the
take/drop recursion below.  The big-prints phase (lines 984-999) and the
boxes phase (lines 1031-1044) each make exactly one group-fetch call per
batch; the levels phase (lines 1007-1021) makes one single-ticker call
per ticker because that endpoint does not support grouping. -/

/-- Successive slices `l[i : i + g]` for `i = 0, g, 2g, ...`. -/
def chunks {α : Type} (g : Nat) : List α → List (List α)
  | [] => []
  | x :: xs =>
    if _h : g = 0 then []
    else ((x :: xs).take g) :: chunks g ((x :: xs).drop g)
termination_by l => l.length
decreasing_by
  simp only [List.length_drop, List.length_cons]
  omega

/-- Embedding of the `batches` list built in `main` (batch size 50). -/
def make_batches (tickers : List String) : List (List String) :=
  chunks 50 tickers

/-- Argument lists of the group-fetch calls issued by the big-prints
phase: one `fetch_big_prints_batch` call per batch. -/
def prints_group_calls (tickers : List String) : List (List String) :=
  make_batches tickers

/-- Argument lists of the group-fetch calls issued by the boxes phase:
one `fetch_price_boxes_batch` call per batch. -/
def boxes_group_calls (tickers : List String) : List (List String) :=
  make_batches tickers

/-- Argument lists of the levels-phase calls: one
`fetch_support_resistance_batch([ticker], ...)` call per ticker. -/
def levels_individual_calls (tickers : List String) : List (List String) :=
  tickers.map (fun t => [t])

theorem chunks_length {α : Type} (g : Nat) (hg : 0 < g) (l : List α) :
    (chunks g l).length = (l.length + g - 1) / g := by
  generalize hn : l.length = n
  induction n using Nat.strong_induction_on generalizing l with
  | _ n ih =>
    cases l with
    | nil =>
      simp only [List.length_nil] at hn
      subst hn
      simp [chunks, Nat.div_eq_of_lt (by omega : g - 1 < g)]
    | cons x xs =>
      simp only [List.length_cons] at hn
      subst hn
      rw [chunks]
      simp only [dif_neg (by omega : ¬ g = 0)]
      have hlen : ((x :: xs).drop g).length = xs.length + 1 - g := by
        simp
      have hlt : ((x :: xs).drop g).length < xs.length + 1 := by
        rw [hlen]; omega
      have hrec := ih _ hlt ((x :: xs).drop g) rfl
      rw [List.length_cons, hrec, hlen]
      rcases le_or_lt g (xs.length + 1) with hge | hlt2
      · have h1 : xs.length + 1 - g + g - 1 = xs.length := by omega
        have h2 : xs.length + 1 + g - 1 = xs.length + g := by omega
        rw [h1, h2, Nat.add_div_right _ hg]
      · have h1 : xs.length + 1 - g = 0 := by omega
        rw [h1]
        have h2 : (0 + g - 1) / g = 0 := Nat.div_eq_of_lt (by omega)
        have h3 : (xs.length + 1 + g - 1) / g = 1 :=
          Nat.div_eq_of_lt_le (by omega) (by omega)
        omega

theorem chunks_flatten {α : Type} (g : Nat) (hg : 0 < g) (l : List α) :
    (chunks g l).flatten = l := by
  generalize hn : l.length = n
  induction n using Nat.strong_induction_on generalizing l with
  | _ n ih =>
    cases l with
    | nil => simp [chunks]
    | cons x xs =>
      rw [chunks]
      simp only [dif_neg (by omega : ¬ g = 0)]
      have hlt : ((x :: xs).drop g).length < n := by
        rw [← hn]
        simp only [List.length_drop, List.length_cons]
        omega
      rw [List.flatten_cons, ih _ hlt _ rfl, List.take_append_drop]

/-! ## Batch Fetcher error paths (`fetch_big_prints_batch` and main, populate_ticker_data.py)

A trade row of the parsed response is embedded with the fields the
function reads: the `Ticker` and `Symbol` strings (empty string models a
missing field, matching `trade.get(..., '')`) and the `TradeRank` field
(`none` models a missing, empty or non-integer rank, for which the row is
skipped).  The remaining payload fields are pass-through data the error
logic never inspects, so a cached record is embedded as the parsed rank
paired with the row it came from. -/

structure Trade where
  tickerField : String
  symbolField : String
  rankField : Option Int
deriving DecidableEq, Repr

/-- Coalesced ticker of a row: `trade.get('Ticker', '') or trade.get('Symbol', '')`. -/
def tradeTicker (tr : Trade) : String :=
  if tr.tickerField ≠ "" then tr.tickerField else tr.symbolField

/-- Append a value to the list held at an existing key; a missing key is
left alone (the `continue` for tickers outside the batch). -/
def assocAppend {α : Type} : List (String × List α) → String → α → List (String × List α)
  | [], _, _ => []
  | (k, vs) :: rest, key, v =>
    if k = key then (k, vs ++ [v]) :: rest else (k, vs) :: assocAppend rest key v

/-- Stable insertion into a rank-sorted list (ascending). -/
def insertByRank (p : Int × Trade) : List (Int × Trade) → List (Int × Trade)
  | [] => [p]
  | q :: rest => if p.1 ≤ q.1 then p :: q :: rest else q :: insertByRank p rest

/-- Stable sort by parsed rank, modelling `list.sort(key=lambda x: x['rank'])`. -/
def sortByRank : List (Int × Trade) → List (Int × Trade)
  | [] => []
  | p :: rest => insertByRank p (sortByRank rest)

/-- Demultiplex a successful group response by ticker (lines 256-289):
initialise every batch ticker to an empty list, append each row whose
coalesced ticker is in the batch and whose rank parses and is at most 20,
then sort each list by rank and keep the top 10. -/
def demuxPrints (tickers_batch : List String) (rows : List Trade) :
    List (String × List (Int × Trade)) :=
  let init := tickers_batch.map (fun t => (t, ([] : List (Int × Trade))))
  let filled := rows.foldl (fun m tr =>
    let tk := tradeTicker tr
    if tk = "" then m
    else
      match tr.rankField with
      | none => m
      | some r => if r ≤ 20 then assocAppend m tk (r, tr) else m) init
  filled.map (fun p => (p.1, (sortByRank p.2).take 10))

/-- Externally-determined outcome of the `retry_with_backoff(make_request, ...)`
call inside a group fetch: a final response with its status code and
parsed body (`none` body models a `json.JSONDecodeError`), a
`requests.exceptions.RequestException` re-raised after retry exhaustion,
or any other escaped exception. -/
inductive ReqOutcome
  | response (status : Nat) (body : Option (List Trade))
  | reqException
  | otherException
deriving DecidableEq

/-- Result of a group-fetch call as seen by `main`: either a returned
per-ticker mapping or an exception propagating out of the call. -/
inductive BatchCallResult (ρ : Type)
  | returns (m : List (String × ρ))
  | raises
deriving DecidableEq

/-- Embedding of `fetch_big_prints_batch(tickers_batch, ...)` (lines
150-302).  On HTTP 200 with a parseable non-empty `data` array the rows
are demultiplexed; an empty or missing `data` array, a JSON parse error,
a non-200 status, and a `requests.exceptions.RequestException` caught at
line 300 (including retry exhaustion) all return an empty list for every
ticker of the batch; any other exception escapes to the caller. -/
def fetch_big_prints_batch (tickers_batch : List String) (outcome : ReqOutcome) :
    BatchCallResult (List (Int × Trade)) :=
  match outcome with
  | .response 200 (some rows) =>
    if rows = [] then .returns (tickers_batch.map (fun t => (t, [])))
    else .returns (demuxPrints tickers_batch rows)
  | .response 200 none => .returns (tickers_batch.map (fun t => (t, [])))
  | .response _ _ => .returns (tickers_batch.map (fun t => (t, [])))
  | .reqException => .returns (tickers_batch.map (fun t => (t, [])))
  | .otherException => .raises

/-- Per-ticker big-prints cache: `None` is the needs-individual-fetch
sentinel written by `main` at line 995. -/
abbrev PrintsCache : Type := List (String × Option (List (Int × Trade)))

/-- One iteration of the big-prints batch loop in `main` (lines 985-999):
a returned mapping is merged into the cache with `dict.update`; an
escaped exception makes `main` assign `None` to every ticker of the
batch. -/
def printsPhaseStep (cache : PrintsCache) (batch : List String) (outcome : ReqOutcome) :
    PrintsCache :=
  match fetch_big_prints_batch batch outcome with
  | .returns m => dictUpdate cache (m.map (fun p => (p.1, some p.2)))
  | .raises => dictUpdate cache (batch.map (fun t => (t, none)))

/-! ## Worker (`process_ticker`, populate_ticker_data.py lines 888-943) -/

/-- Cache dispatch performed by `process_ticker` for one category
(the pattern of lines 896-911): the cached value is used when the cache
argument is truthy (passed and non-empty), holds an entry for the ticker,
and that entry is not `None`; otherwise the direct per-item fetch runs.
Returns the category result together with whether the direct fetch ran. -/
def selectCategory {α ε : Type} (cache : Option (List (String × Option α)))
    (ticker : String) (fetchResult : Except ε α) : Except ε α × Bool :=
  match cache with
  | none => (fetchResult, true)
  | some c =>
    if c.isEmpty then (fetchResult, true)
    else
      match dictGet c ticker with
      | some (some v) => (Except.ok v, false)
      | _ => (fetchResult, true)

/-- Outcome of the `open`/`json.dump` block at lines 933-943: on success
the ticker file is written; a filesystem exception leaves the store in an
environment-determined state `fsAfter` (the `open(..., 'w')` may or may
not have truncated the file before failing). -/
inductive SaveOutcome (φ : Type)
  | success
  | failure (fsAfter : φ)

/-- Embedding of the gather block of `process_ticker` (lines 894-915):
the three category results, each taken from its cache or fetched
directly, sequenced so that the first raised exception aborts the rest. -/
def gather_ticker {π lv bx ε : Type}
    (prints_cache : Option (List (String × Option π)))
    (levels_cache : Option (List (String × Option lv)))
    (boxes_cache : Option (List (String × Option bx)))
    (ticker : String)
    (fetch_prints : Except ε π) (fetch_levels : Except ε lv) (fetch_boxes : Except ε bx) :
    Except ε (π × lv × bx) :=
  match (selectCategory prints_cache ticker fetch_prints).1 with
  | .error e => .error e
  | .ok prints =>
    match (selectCategory levels_cache ticker fetch_levels).1 with
    | .error e => .error e
    | .ok levels =>
      match (selectCategory boxes_cache ticker fetch_boxes).1 with
      | .error e => .error e
      | .ok boxes => .ok (prints, levels, boxes)

/-- Embedding of `process_ticker` (lines 888-943).  The file store is an
association list from file name to written record.  A gather exception
returns `False` with the store untouched (the `except` at line 913 runs
before any file is opened); otherwise the record is written to
`<ticker>.json`, and a save exception returns `False` with the store in
the state the failed write left it. -/
def process_ticker {π lv bx ε : Type}
    (ticker : String)
    (prints_cache : Option (List (String × Option π)))
    (levels_cache : Option (List (String × Option lv)))
    (boxes_cache : Option (List (String × Option bx)))
    (fetch_prints : Except ε π) (fetch_levels : Except ε lv) (fetch_boxes : Except ε bx)
    (fs : List (String × (π × lv × bx)))
    (save : SaveOutcome (List (String × (π × lv × bx)))) :
    Bool × List (String × (π × lv × bx)) :=
  match gather_ticker prints_cache levels_cache boxes_cache ticker
      fetch_prints fetch_levels fetch_boxes with
  | .error _ => (false, fs)
  | .ok d =>
    match save with
    | .success => (true, dictInsert fs (ticker ++ ".json") d)
    | .failure fsAfter => (false, fsAfter)

/-! ## Progress Store and monitor batches (monitor_ticker_changes_robust.py) -/

/-- In-memory progress of the robust monitor: the `processed_tickers` and
`failed_tickers` Python sets. -/
structure ProgressState where
  processed : Finset String
  failed : Finset String
deriving DecidableEq

/-- Content of the progress JSON file: the two sets serialised as lists
(plus a timestamp the load path never uses). -/
structure ProgressFileData where
  processed : List String
  failed : List String
deriving DecidableEq

/-- Embedding of `save_progress` (lines 65-76): each set is written out as
a list of its elements; Python set iteration order is arbitrary, so the
embedding serialises in canonical sorted order. -/
def save_progress (s : ProgressState) : ProgressFileData :=
  ⟨Finset.sort (· ≤ ·) s.processed, Finset.sort (· ≤ ·) s.failed⟩

/-- Embedding of `load_progress` (lines 51-63): a missing file (`none`,
also covering an unreadable or unparseable file, whose exception is
caught at line 60) yields the empty state; otherwise the two lists are
turned back into sets. -/
def load_progress (file : Option ProgressFileData) : ProgressState :=
  match file with
  | none => ⟨∅, ∅⟩
  | some d => ⟨d.processed.toFinset, d.failed.toFinset⟩

/-- Outcome of one `process_ticker_batch` subprocess run (lines 129-182):
the populate script exited 0; it exited non-zero, timed out or raised
(all of which add the batch to `failed_tickers`); or the memory guard
stopped the batch before launching it (line 141, which touches neither
set). -/
inductive BatchOutcome
  | success
  | scriptFailure
  | memoryStop
deriving DecidableEq

/-- State effect of `process_ticker_batch` on the progress sets: success
adds the whole batch to `processed_tickers` (line 164), a script failure
adds it to `failed_tickers` (lines 169, 174, 178), and a memory stop
changes nothing.  No path ever removes an element from either set. -/
def process_ticker_batch (s : ProgressState) (batch : List String) :
    BatchOutcome → ProgressState
  | .success => ⟨s.processed ∪ batch.toFinset, s.failed⟩
  | .scriptFailure => ⟨s.processed, s.failed ∪ batch.toFinset⟩
  | .memoryStop => s

/-! ## CLI exit codes (claim C4) -/

/-- Exit code of `populate_ticker_data.main` (lines 945-1102): the only
`sys.exit` call is `sys.exit(1)` at line 972 when the ticker list is
empty; otherwise `main` runs to completion and prints the
successful/failed counts (line 1098) without ever exiting non-zero, so
the process exit code is 0 whatever the counts are. -/
def populate_main_exit (tickers : List String) (_successful _failed : Nat) : Nat :=
  if tickers = [] then 1 else 0

/-- Exit code of `monitor_ticker_changes_robust.main` for a
`--full-refresh`/`--resume` run (line 336: `sys.exit(0 if success else
1)`), with `success` the return value of `run_full_refresh` (lines
242-316): `False` when no tickers load, `True` when nothing remained to
process, and otherwise `True` exactly when the final count of processed
tickers equals the universe size. -/
def run_full_refresh_exit (all_tickers : List String) (initial final : ProgressState) : Nat :=
  if all_tickers = [] then 1
  else if all_tickers.all (fun t => decide (t ∈ initial.processed)) then 0
  else if final.processed.card = all_tickers.length then 0 else 1

/-! ## Generic helper lemmas -/

theorem isPrefixOf_append_self (l r : List Char) : l.isPrefixOf (l ++ r) = true := by
  induction l with
  | nil => simp [List.isPrefixOf]
  | cons c cs ih => simp [List.isPrefixOf, ih]

theorem flatten_map_singleton {α : Type} (l : List α) :
    (l.map (fun t => [t])).flatten = l := by
  induction l with
  | nil => rfl
  | cons x xs ih => simp [ih]

theorem searchDate_of_matchDateAt (s : List Char) (v : Nat) (h : matchDateAt s = some v) :
    searchDate s = some v := by
  cases s with
  | nil => simp [matchDateAt, List.isPrefixOf] at h
  | cons c cs => simp [searchDate, h]

theorem searchDate_eq_none (s : List Char)
    (h : ∀ i, i ≤ s.length → matchDateAt (s.drop i) = none) :
    searchDate s = none := by
  induction s with
  | nil => rfl
  | cons c cs ih =>
    have h0 : matchDateAt (c :: cs) = none := h 0 (Nat.zero_le _)
    have hrest : searchDate cs = none :=
      ih (fun i hi => h (i + 1) (by simpa using hi))
    simp [searchDate, h0, hrest]

/-! ## Claim theorems -/

/-- Claim C2: the Backoff Executor, run on an operation that fails on
exactly the first `k < max_retries` invocations and then succeeds,
returns the success value after exactly `k + 1` invocations; run on an
operation that fails on every invocation, it makes exactly
`max_retries + 1` invocations and re-raises the failure of the last one. -/
theorem retry_with_backoff_spec {ε α : Type} (f : Nat → Except ε α)
    (max_retries k : Nat) (a : α) (g : Nat → ε) :
    (k < max_retries → (∀ i, i < k → ∃ e, f i = .error e) → f k = .ok a →
      retry_with_backoff f max_retries = (.ok a, k + 1)) ∧
    ((∀ i, i ≤ max_retries → f i = .error (g i)) →
      retry_with_backoff f max_retries = (.error (g max_retries), max_retries + 1)) := by
  constructor
  · intro hk hfail hok
    exact retryAux_ok f a k max_retries 0 (by omega)
      (fun i hi => by simpa using hfail i hi) (by simpa using hok)
  · intro hfail
    simpa using retryAux_err f g max_retries 0 (fun i hi => by simpa using hfail i hi)

/-- Witness for C2: an operation failing twice then returning 7, with 3
retries allowed, yields 7 in 3 invocations; an always-failing operation
with 1 retry allowed makes 2 invocations and surfaces the last error. -/
theorem retry_with_backoff_spec_witness :
    retry_with_backoff (fun i => if i < 2 then Except.error i else Except.ok 7) 3
      = (Except.ok 7, 3) ∧
    retry_with_backoff (fun i => (Except.error i : Except Nat Nat)) 1
      = (Except.error 1, 2) :=
  ⟨(retry_with_backoff_spec (fun i => if i < 2 then Except.error i else Except.ok 7)
      3 2 7 (fun i => i)).1 (by omega) (fun i hi => ⟨i, by simp [hi]⟩) (by norm_num),
   (retry_with_backoff_spec (fun i => (Except.error i : Except Nat Nat))
      1 0 0 (fun i => i)).2 (fun i _ => rfl)⟩

/-- Claim C6: `detect_ticker_changes(current, cached)` returns the two
set differences (membership in the first component is membership in
`current` but not `cached`, and symmetrically), and on identical inputs
returns two empty sets.  The embedding is a pure function, as is the
source (it reads sets built from its arguments and touches no external
state). -/
theorem detect_ticker_changes_spec (current cached X : List String) (t : String) :
    (t ∈ (detect_ticker_changes current cached).1 ↔ t ∈ current ∧ t ∉ cached) ∧
    (t ∈ (detect_ticker_changes current cached).2 ↔ t ∈ cached ∧ t ∉ current) ∧
    detect_ticker_changes X X = (∅, ∅) := by
  refine ⟨?_, ?_, ?_⟩ <;> simp [detect_ticker_changes]

/-- Claim C5: with batch size 50 the big-prints and boxes phases each
issue one group call per batch, hence `⌈|U| / 50⌉ = (|U| + 49) / 50`
calls, whose argument lists concatenate back to exactly the universe,
and the levels phase issues exactly `|U|` single-ticker calls covering
the universe. -/
theorem batch_call_counts_spec (U : List String) :
    (prints_group_calls U).length = (U.length + 50 - 1) / 50 ∧
    (boxes_group_calls U).length = (U.length + 50 - 1) / 50 ∧
    (prints_group_calls U).flatten = U ∧
    (boxes_group_calls U).flatten = U ∧
    (levels_individual_calls U).length = U.length ∧
    (levels_individual_calls U).flatten = U :=
  ⟨chunks_length 50 (by omega) U, chunks_length 50 (by omega) U,
   chunks_flatten 50 (by omega) U, chunks_flatten 50 (by omega) U,
   by simp [levels_individual_calls], flatten_map_singleton U⟩

/-- Claim C10 counterexample: the input `/Date(1000)/x` is non-empty and
not of the exact form `/Date(<digits>)/` (it has a trailing character),
so the claim requires the result `None`; the code returns
`1000 // 1000 + 14400 = 14401` because it only checks the prefix and
then searches for the pattern anywhere in the string. -/
theorem convert_timestamp_counterexample :
    convert_dotnet_timestamp "/Date(1000)/x".toList = some 14401 ∧
    isExactDateForm "/Date(1000)/x".toList = false ∧
    "/Date(1000)/x".toList ≠ [] := by
  refine ⟨by decide, by decide, by decide⟩

/-- Claim C10 as amended: `convert_dotnet_timestamp` returns `None` for
every input that does not start with `/Date(` (in particular the empty
string); it also returns `None` for every input in which no position
begins a match of `/Date(<digits>)/` (which covers inputs that start
with `/Date(` but contain no such substring); and it returns
`ms // 1000 + 14400` — the source millisecond value in seconds shifted
exactly 4 hours later — for every input consisting of `/Date(`, the
digits of `ms`, `)/`, and an arbitrary suffix.  Positions beyond the
length need not be assumed: dropping past the end yields the empty
string, where no match starts. -/
theorem convert_timestamp_amended (ds t s : List Char)
    (hds : ds ≠ []) (hdig : ∀ c ∈ ds, c.isDigit) :
    convert_dotnet_timestamp ("/Date(".toList ++ (ds ++ ')' :: '/' :: t))
      = some (digitsVal ds / 1000 + 14400) ∧
    (¬ "/Date(".toList.isPrefixOf s → convert_dotnet_timestamp s = none) ∧
    ((∀ i, i ≤ s.length → matchDateAt (s.drop i) = none) →
      convert_dotnet_timestamp s = none) := by
  refine ⟨?_, ?_, ?_⟩
  · have hpre := isPrefixOf_append_self "/Date(".toList (ds ++ ')' :: '/' :: t)
    have hne : "/Date(".toList ++ (ds ++ ')' :: '/' :: t) ≠ [] := by simp
    have hdrop : ("/Date(".toList ++ (ds ++ ')' :: '/' :: t)).drop 6
        = ds ++ ')' :: '/' :: t := by
      rw [show 6 = ("/Date(".toList).length from rfl, List.drop_left]
    have hspan : digitSpan (ds ++ ')' :: '/' :: t) = (ds, ')' :: '/' :: t) := by
      apply digitSpan_append _ _ hdig
      intro c hc
      simp only [List.head?_cons, Option.some.injEq] at hc
      subst hc
      decide
    have hmatch : matchDateAt ("/Date(".toList ++ (ds ++ ')' :: '/' :: t))
        = some (digitsVal ds) := by
      unfold matchDateAt
      rw [if_pos hpre, hdrop]
      simp only [hspan]
      rw [if_pos ⟨hds, isPrefixOf_append_self ")/".toList t⟩]
    have hsearch := searchDate_of_matchDateAt _ _ hmatch
    have hcond : ¬ (("/Date(".toList ++ (ds ++ ')' :: '/' :: t)) = [] ∨
        ¬ ("/Date(".toList.isPrefixOf ("/Date(".toList ++ (ds ++ ')' :: '/' :: t)) = true)) := by
      push_neg
      exact ⟨hne, hpre⟩
    unfold convert_dotnet_timestamp
    rw [if_neg hcond, hsearch]
  · intro h
    unfold convert_dotnet_timestamp
    rw [if_pos (Or.inr h)]
  · intro h
    unfold convert_dotnet_timestamp
    by_cases hc : s = [] ∨ ¬ ("/Date(".toList.isPrefixOf s = true)
    · rw [if_pos hc]
    · rw [if_neg hc, searchDate_eq_none s h]

/-- Witness for the amended C10: `/Date(9)/x` maps to `9 // 1000 + 14400
= 14400` despite the trailing character, `hello` maps to `None`, and
`/Date(abc` — which starts with `/Date(` but contains no
`/Date(<digits>)/` substring — also maps to `None`. -/
theorem convert_timestamp_amended_witness :
    convert_dotnet_timestamp ("/Date(".toList ++ (['9'] ++ ')' :: '/' :: "x".toList))
      = some 14400 ∧
    convert_dotnet_timestamp "hello".toList = none ∧
    convert_dotnet_timestamp "/Date(abc".toList = none :=
  ⟨((convert_timestamp_amended ['9'] "x".toList "hello".toList (by decide) (by decide)).1).trans
      (by decide),
   (convert_timestamp_amended ['9'] "x".toList "hello".toList (by decide) (by decide)).2.1
      (by decide),
   (convert_timestamp_amended ['9'] "x".toList "/Date(abc".toList (by decide) (by decide)).2.2
      (by decide)⟩

/-- Claim C7: loading immediately after saving restores exactly the saved
state (for any state, in particular any state with disjoint sets), and
loading with no readable file yields the empty state without failing. -/
theorem progress_roundtrip_spec (s : ProgressState)
    (h : Disjoint s.processed s.failed) :
    load_progress (some (save_progress s)) = s ∧
    load_progress none = (⟨∅, ∅⟩ : ProgressState) := by
  obtain ⟨p, f⟩ := s
  exact ⟨by simp [load_progress, save_progress, Finset.sort_toFinset], rfl⟩

/-- Witness for C7 at a concrete disjoint state. -/
theorem progress_roundtrip_spec_witness :
    load_progress (some (save_progress ⟨{"A"}, {"B"}⟩)) = (⟨{"A"}, {"B"}⟩ : ProgressState) ∧
    load_progress none = (⟨∅, ∅⟩ : ProgressState) :=
  progress_roundtrip_spec ⟨{"A"}, {"B"}⟩ (by simp)

/-- Claim C3 counterexample: a batch containing ticker `A` fails (run 1,
adding `A` to the failed set, which `save_progress` persists), and on a
later resume the same batch succeeds; `process_ticker_batch` adds `A`
to the processed set but no code path removes it from the failed set, so
the state handed to the very next `save_progress` call (line 285) has
`A` in both sets — they are not disjoint. -/
theorem progress_overlap_counterexample :
    "A" ∈ (process_ticker_batch (process_ticker_batch ⟨∅, ∅⟩ ["A"] BatchOutcome.scriptFailure)
        ["A"] BatchOutcome.success).processed ∧
    "A" ∈ (process_ticker_batch (process_ticker_batch ⟨∅, ∅⟩ ["A"] BatchOutcome.scriptFailure)
        ["A"] BatchOutcome.success).failed ∧
    ¬ Disjoint
      (process_ticker_batch (process_ticker_batch ⟨∅, ∅⟩ ["A"] BatchOutcome.scriptFailure)
        ["A"] BatchOutcome.success).processed
      (process_ticker_batch (process_ticker_batch ⟨∅, ∅⟩ ["A"] BatchOutcome.scriptFailure)
        ["A"] BatchOutcome.success).failed := by
  have h1 : "A" ∈ (process_ticker_batch (process_ticker_batch ⟨∅, ∅⟩ ["A"]
      BatchOutcome.scriptFailure) ["A"] BatchOutcome.success).processed := by decide
  have h2 : "A" ∈ (process_ticker_batch (process_ticker_batch ⟨∅, ∅⟩ ["A"]
      BatchOutcome.scriptFailure) ["A"] BatchOutcome.success).failed := by decide
  exact ⟨h1, h2, fun hd => Finset.disjoint_left.mp hd h1 h2⟩

/-- Claim C3 as amended: a successful batch only adds its tickers to the
processed set and leaves the failed set untouched, and no outcome of
`process_ticker_batch` ever shrinks the failed set; consequently a
previously-failed ticker that later succeeds is a member of both sets at
the next save, and the two persisted sets need not be disjoint. -/
theorem progress_failed_monotone_amended (s : ProgressState) (batch : List String) :
    (process_ticker_batch s batch BatchOutcome.success).processed
      = s.processed ∪ batch.toFinset ∧
    (process_ticker_batch s batch BatchOutcome.success).failed = s.failed ∧
    ∀ out, s.failed ⊆ (process_ticker_batch s batch out).failed := by
  refine ⟨rfl, rfl, fun out => ?_⟩
  cases out <;> simp [process_ticker_batch]

/-- Claim C4 counterexample: `populate_ticker_data.main` on the non-empty
universe `[A]` with zero successful items still exits 0 (the claim
requires non-zero when zero items succeed), and the robust monitor on
universe `[A, B]` where `A` succeeded and `B` failed exits 1 (the claim
requires 0 on partial success with at least one item processed). -/
theorem exit_code_counterexample :
    populate_main_exit ["A"] 0 1 = 0 ∧
    run_full_refresh_exit ["A", "B"] ⟨∅, ∅⟩ ⟨{"A"}, {"B"}⟩ = 1 := by
  refine ⟨by decide, by decide⟩

/-- Claim C4 as amended: `populate_ticker_data.main` exits 0 whenever the
ticker universe is non-empty, independently of the success and failure
counts (even with zero successes), and exits 1 exactly on an empty or
unloadable universe; the robust monitor exits 1 on an empty universe and
also on any partial run in which the processed count does not reach the
universe size, however many items succeeded. -/
theorem exit_code_amended (tickers : List String) (s f s2 f2 : Nat)
    (all : List String) (initial final : ProgressState) :
    (tickers ≠ [] → populate_main_exit tickers s f = 0) ∧
    populate_main_exit tickers s f = populate_main_exit tickers s2 f2 ∧
    populate_main_exit [] s f = 1 ∧
    run_full_refresh_exit [] initial final = 1 ∧
    (all ≠ [] → (∃ t ∈ all, t ∉ initial.processed) →
      final.processed.card ≠ all.length →
      run_full_refresh_exit all initial final = 1) := by
  refine ⟨fun h => by simp [populate_main_exit, h], rfl, by simp [populate_main_exit],
    by simp [run_full_refresh_exit], ?_⟩
  intro hall hex hcard
  obtain ⟨t, ht, hnp⟩ := hex
  have hnotall : ¬ (all.all fun x => decide (x ∈ initial.processed)) = true := by
    simp only [List.all_eq_true, decide_eq_true_eq]
    push_neg
    exact ⟨t, ht, hnp⟩
  unfold run_full_refresh_exit
  rw [if_neg hall, if_neg hnotall, if_neg hcard]

/-- Witness for the amended C4. -/
theorem exit_code_amended_witness :
    populate_main_exit ["A"] 3 4 = 0 ∧
    run_full_refresh_exit ["A", "B"] ⟨∅, ∅⟩ ⟨{"A"}, ∅⟩ = 1 :=
  ⟨(exit_code_amended ["A"] 3 4 0 0 ["A", "B"] ⟨∅, ∅⟩ ⟨{"A"}, ∅⟩).1 (by simp),
   (exit_code_amended ["A"] 3 4 0 0 ["A", "B"] ⟨∅, ∅⟩ ⟨{"A"}, ∅⟩).2.2.2.2 (by simp)
     ⟨"A", by simp, by simp⟩ (by decide)⟩

/-- Claim C8: the per-category dispatch of `process_ticker` uses the
cached result exactly when the cache holds a non-sentinel entry for the
ticker — if the cache is passed and has an entry `some v` for the
ticker, the cached `v` is used and no direct fetch runs — and the direct
per-item fetch runs exactly when no cache was passed, the cache is
empty, the entry is missing, or the entry is the `None` sentinel, in
which case the result is the direct fetch result. -/
theorem select_category_spec {α ε : Type} (cache : Option (List (String × Option α)))
    (ticker : String) (fetchResult : Except ε α) :
    (∀ c v, cache = some c → dictGet c ticker = some (some v) →
      selectCategory cache ticker fetchResult = (Except.ok v, false)) ∧
    ((selectCategory cache ticker fetchResult).2 = true ↔
      cache = none ∨ ∃ c, cache = some c ∧
        (dictGet c ticker = none ∨ dictGet c ticker = some none)) ∧
    ((selectCategory cache ticker fetchResult).2 = true →
      (selectCategory cache ticker fetchResult).1 = fetchResult) := by
  cases cache with
  | none =>
    refine ⟨fun c v hc => ?_, ?_, fun _ => rfl⟩
    · cases hc
    · simp [selectCategory]
  | some c =>
    cases c with
    | nil =>
      refine ⟨fun c0 v hc0 hget => ?_,
        ⟨fun _ => Or.inr ⟨[], rfl, Or.inl rfl⟩, fun _ => rfl⟩, fun _ => rfl⟩
      injection hc0 with h
      subst h
      simp [dictGet] at hget
    | cons p rest =>
      cases hget : dictGet (p :: rest) ticker with
      | none =>
        have hsel : selectCategory (some (p :: rest)) ticker fetchResult
            = (fetchResult, true) := by
          simp [selectCategory, hget]
        refine ⟨fun c0 v hc0 hg => ?_,
          ⟨fun _ => Or.inr ⟨p :: rest, rfl, Or.inl hget⟩, fun _ => by rw [hsel]⟩,
          fun _ => by rw [hsel]⟩
        injection hc0 with h
        subst h
        rw [hget] at hg
        cases hg
      | some ov =>
        cases ov with
        | none =>
          have hsel : selectCategory (some (p :: rest)) ticker fetchResult
              = (fetchResult, true) := by
            simp [selectCategory, hget]
          refine ⟨fun c0 v hc0 hg => ?_,
            ⟨fun _ => Or.inr ⟨p :: rest, rfl, Or.inr hget⟩, fun _ => by rw [hsel]⟩,
            fun _ => by rw [hsel]⟩
          injection hc0 with h
          subst h
          rw [hget] at hg
          injection hg with h1
          cases h1
        | some v =>
          have hsel : selectCategory (some (p :: rest)) ticker fetchResult
              = (Except.ok v, false) := by
            simp [selectCategory, hget]
          refine ⟨fun c0 v0 hc0 hg => ?_, ⟨fun h => ?_, fun h => ?_⟩, fun h => ?_⟩
          · injection hc0 with hceq
            subst hceq
            rw [hget] at hg
            injection hg with h1
            injection h1 with h2
            subst h2
            exact hsel
          · rw [hsel] at h
            cases h
          · rcases h with h | ⟨c0, hc0, h⟩
            · cases h
            · injection hc0 with hceq
              subst hceq
              rcases h with h | h <;> rw [hget] at h <;> cases h
          · rw [hsel] at h
            cases h

/-- Witness for C8: a non-sentinel cache entry is used without fetching
even when the direct fetch would fail, and a sentinel entry forces the
direct-fetch path. -/
theorem select_category_spec_witness :
    selectCategory (some [("A", some 5)]) "A" (Except.error () : Except Unit Nat)
      = (Except.ok 5, false) ∧
    (selectCategory (some [("A", (none : Option Nat))]) "A"
      (Except.error () : Except Unit Nat)).2 = true :=
  ⟨(select_category_spec (some [("A", some 5)]) "A" (Except.error ())).1
      [("A", some 5)] 5 rfl (by decide),
   ((select_category_spec (some [("A", none)]) "A" (Except.error ())).2.1).mpr
      (Or.inr ⟨[("A", none)], rfl, Or.inr (by decide)⟩)⟩

/-- Claim C9: if any of the three per-category gathers inside
`process_ticker` raises, `process_ticker` returns `False` and the file
store is unchanged — the output file is opened only after all three
gathers have completed without raising. -/
theorem process_ticker_gather_failure_spec {π lv bx ε : Type} (ticker : String)
    (pc : Option (List (String × Option π))) (lc : Option (List (String × Option lv)))
    (bc : Option (List (String × Option bx)))
    (fp : Except ε π) (fl : Except ε lv) (fb : Except ε bx)
    (fs : List (String × (π × lv × bx)))
    (save : SaveOutcome (List (String × (π × lv × bx))))
    (h : (∃ e, (selectCategory pc ticker fp).1 = .error e) ∨
         (∃ e, (selectCategory lc ticker fl).1 = .error e) ∨
         (∃ e, (selectCategory bc ticker fb).1 = .error e)) :
    process_ticker ticker pc lc bc fp fl fb fs save = (false, fs) := by
  rcases h with ⟨e, he⟩ | ⟨e, he⟩ | ⟨e, he⟩
  · simp [process_ticker, gather_ticker, he]
  · cases hp : (selectCategory pc ticker fp).1 with
    | error e2 => simp [process_ticker, gather_ticker, hp]
    | ok vp => simp [process_ticker, gather_ticker, hp, he]
  · cases hp : (selectCategory pc ticker fp).1 with
    | error e2 => simp [process_ticker, gather_ticker, hp]
    | ok vp =>
      cases hl : (selectCategory lc ticker fl).1 with
      | error e2 => simp [process_ticker, gather_ticker, hp, hl]
      | ok vlv => simp [process_ticker, gather_ticker, hp, hl, he]

/-- Witness for C9: a failing prints fetch with no caches leaves an empty
file store empty and returns `False`. -/
theorem process_ticker_gather_failure_spec_witness :
    process_ticker "AAPL" (none : Option (List (String × Option Nat)))
      (none : Option (List (String × Option Nat)))
      (none : Option (List (String × Option Nat)))
      (Except.error ()) (Except.ok 1) (Except.ok 2)
      ([] : List (String × (Nat × Nat × Nat))) SaveOutcome.success = (false, []) :=
  process_ticker_gather_failure_spec "AAPL" none none none
    (Except.error ()) (Except.ok 1) (Except.ok 2) [] SaveOutcome.success
    (Or.inl ⟨(), rfl⟩)

theorem printsPhaseStep_reqException (cache : PrintsCache) (batch : List String) :
    printsPhaseStep cache batch ReqOutcome.reqException
      = dictUpdate cache (batch.map (fun x => (x, some []))) := by
  simp only [printsPhaseStep, fetch_big_prints_batch, List.map_map]
  rfl

/-- Claim C1 counterexample: the group `[A]` exhausts its retries with a
`requests`-level failure (timeouts and connection errors are
`RequestException`s, re-raised by `retry_with_backoff` and caught at
line 300 of `fetch_big_prints_batch`).  The claim requires the cache
entry for `A` to be the `None` sentinel and `A`'s record to be produced
by the individual fetch; instead the cache entry is the non-sentinel
empty list `some []`, and `process_ticker` uses that silently-empty
cached result without running the individual fetch (here the direct
fetch result is an error, and it is never consulted). -/
theorem batch_sentinel_counterexample :
    printsPhaseStep [] ["A"] ReqOutcome.reqException = [("A", some [])] ∧
    dictGet (printsPhaseStep [] ["A"] ReqOutcome.reqException) "A" ≠ some none ∧
    selectCategory (some (printsPhaseStep [] ["A"] ReqOutcome.reqException)) "A"
      (Except.error () : Except Unit (List (Int × Trade))) = (Except.ok [], false) :=
  ⟨rfl, by decide, rfl⟩

/-- Claim C1 as amended: when a group fetch ends in a request-level
failure after retry exhaustion, every ticker of the group is cached with
the non-sentinel empty result `some []`, which `process_ticker` then
uses directly — the silently-empty result, with no individual fetch;
only when the group fetch raises a non-request exception that escapes to
`main` is every ticker of the group marked with the `None` sentinel, and
only then does `process_ticker` take the individual-fetch path. -/
theorem batch_sentinel_amended (cache : PrintsCache) (batch : List String) (t : String)
    (ht : t ∈ batch) (fetchResult : Except Unit (List (Int × Trade))) :
    dictGet (printsPhaseStep cache batch ReqOutcome.reqException) t = some (some []) ∧
    selectCategory (some (printsPhaseStep cache batch ReqOutcome.reqException)) t fetchResult
      = (Except.ok [], false) ∧
    dictGet (printsPhaseStep cache batch ReqOutcome.otherException) t = some none ∧
    selectCategory (some (printsPhaseStep cache batch ReqOutcome.otherException)) t fetchResult
      = (fetchResult, true) := by
  have h1 : dictGet (printsPhaseStep cache batch ReqOutcome.reqException) t
      = some (some ([] : List (Int × Trade))) := by
    rw [printsPhaseStep_reqException]
    refine dictGet_update_const _ _ cache t ?_ ?_
    · intro p hp
      obtain ⟨x, _, rfl⟩ := List.mem_map.mp hp
      rfl
    · simpa [List.map_map, Function.comp] using ht
  have hne : (printsPhaseStep cache batch ReqOutcome.reqException).isEmpty = false := by
    cases hc : printsPhaseStep cache batch ReqOutcome.reqException with
    | nil => rw [hc] at h1; simp [dictGet] at h1
    | cons a l => rfl
  have h2 : selectCategory (some (printsPhaseStep cache batch ReqOutcome.reqException))
      t fetchResult = (Except.ok [], false) := by
    simp [selectCategory, hne, h1]
  have h3 : dictGet (printsPhaseStep cache batch ReqOutcome.otherException) t = some none := by
    show dictGet (dictUpdate cache (batch.map (fun x => (x, none)))) t = some none
    refine dictGet_update_const _ _ cache t ?_ ?_
    · intro p hp
      obtain ⟨x, _, rfl⟩ := List.mem_map.mp hp
      rfl
    · simpa [List.map_map, Function.comp] using ht
  have hne3 : (printsPhaseStep cache batch ReqOutcome.otherException).isEmpty = false := by
    cases hc : printsPhaseStep cache batch ReqOutcome.otherException with
    | nil => rw [hc] at h3; simp [dictGet] at h3
    | cons a l => rfl
  have h4 : selectCategory (some (printsPhaseStep cache batch ReqOutcome.otherException))
      t fetchResult = (fetchResult, true) := by
    simp [selectCategory, hne3, h3]
  exact ⟨h1, h2, h3, h4⟩

/-- Witness for the amended C1 at a concrete group. -/
theorem batch_sentinel_amended_witness :
    dictGet (printsPhaseStep [] ["B"] ReqOutcome.otherException) "B" = some none ∧
    selectCategory (some (printsPhaseStep [] ["B"] ReqOutcome.otherException)) "B"
      (Except.ok [] : Except Unit (List (Int × Trade))) = (Except.ok [], true) :=
  ⟨(batch_sentinel_amended [] ["B"] "B" (by simp) (Except.ok [])).2.2.1,
   (batch_sentinel_amended [] ["B"] "B" (by simp) (Except.ok [])).2.2.2⟩

end TrendSpider
